import Mathlib

/-!
Verification of the Smart-Gabagool trading core against its specification.

The Python source is shallowly embedded over `ℚ` (the source uses
`decimal.Decimal`, exact base-10 arithmetic, so rationals model it
faithfully).  Each definition mirrors one function of the source:

* `mkPosition` — the `Position` pydantic model's validator chain
  (`src/backend/src/models/position.py`), which recomputes every derived
  field from the four primaries.
* `updatePositionAtomic` — the committed effect of
  `StateManager.update_position_atomic` (`core/state_manager.py`).
* `marketSellUpdate` — the position update issued by
  `RiskEngine._market_sell` during emergency liquidation
  (`core/risk_engine.py`).
* `scanSelect` — opportunity detection and selection of
  `Accumulator._scan_and_execute` (`core/accumulator.py`).
* `checkConstraints` / `executeOpportunity` — `Accumulator._check_constraints`
  and the guard in `Accumulator._execute_opportunity`.
* `executeTradeStep` — the state effect of `Accumulator.execute_trade`.
* `checkBailoutStopLoss` / `midPrice` — `RiskEngine.check_bailout_stop_loss`
  and `RiskEngine._get_mid_price`.
* `rebalanceBidPrice` — the price logic of `Equalizer._rebalance_position`.
* `zadd` / `addTrade` — the redis sorted-set operations used by
  `StateManager.add_trade`.
* `retriesReach` — the retry recursion of `update_position_atomic` on
  `WatchError`.

Python truthiness notes baked into the embedding: `not d` for a
`Decimal d` is true exactly when `d = 0`, and `not s` for an optional
value is true when it is `None`; the source uses these checks on best-ask
prices, mid prices and order ids, so a zero price behaves like a missing
price there.
-/

namespace Gabagool

/-- Trade side, the `"YES"`/`"NO"` literals of the source. -/
inductive Side where
  | yes
  | no
deriving DecidableEq, Repr

/-- The stored `Position` record: four primary fields and the five derived
fields that the pydantic model persists alongside them. -/
structure Position where
  qty_yes : ℚ
  cost_yes : ℚ
  avg_yes : ℚ
  qty_no : ℚ
  cost_no : ℚ
  avg_no : ℚ
  pair_cost : ℚ
  locked_profit : ℚ
  delta : ℚ
deriving DecidableEq, Repr

/-- `Position(**dict)` construction: the validator chain of
`models/position.py` recomputes every derived field from the primaries
(`calculate_averages`, `calculate_delta`, `calculate_pair_cost`,
`calculate_locked_profit`), ignoring any stored derived values. -/
def mkPosition (qty_yes cost_yes qty_no cost_no : ℚ) : Position :=
  let avg_yes := if 0 < qty_yes then cost_yes / qty_yes else 0
  let avg_no := if 0 < qty_no then cost_no / qty_no else 0
  let delta := qty_yes - qty_no
  let pair_cost := avg_yes + avg_no
  let paired_qty := min qty_yes qty_no
  let locked_profit :=
    if 0 < paired_qty ∧ pair_cost < 1 then paired_qty * (1 - pair_cost) else 0
  { qty_yes := qty_yes, cost_yes := cost_yes, avg_yes := avg_yes,
    qty_no := qty_no, cost_no := cost_no, avg_no := avg_no,
    pair_cost := pair_cost, locked_profit := locked_profit, delta := delta }

/-- Committed effect of `StateManager.update_position_atomic`: apply the
deltas to the primaries of the named side, then rebuild the `Position`
through the validator chain (`Position(**position.dict())`). -/
def updatePositionAtomic (p : Position) (side : Side) (qty_delta cost_delta : ℚ) :
    Position :=
  match side with
  | Side.yes => mkPosition (p.qty_yes + qty_delta) (p.cost_yes + cost_delta)
      p.qty_no p.cost_no
  | Side.no => mkPosition p.qty_yes p.cost_yes (p.qty_no + qty_delta)
      (p.cost_no + cost_delta)

/-- Quantity of the named side. -/
def sideQty (p : Position) : Side → ℚ
  | Side.yes => p.qty_yes
  | Side.no => p.qty_no

/-- Cost of the named side. -/
def sideCost (p : Position) : Side → ℚ
  | Side.yes => p.cost_yes
  | Side.no => p.cost_no

/-- Position update issued by `RiskEngine._market_sell` once the venue
accepts the sell: `update_position_atomic(side, -qty, -(best_bid * qty))`
with `qty` the full quantity of the liquidated leg. -/
def marketSellUpdate (p : Position) (side : Side) (best_bid : ℚ) : Position :=
  updatePositionAtomic p side (-(sideQty p side)) (-(best_bid * sideQty p side))

/-- One price level of the order book (`OrderBookEntry`). -/
structure BookEntry where
  price : ℚ
  size : ℚ
deriving DecidableEq, Repr

/-- The four sides of the order book (`OrderBook`). -/
structure OrderBook where
  yes_bids : List BookEntry
  yes_asks : List BookEntry
  no_bids : List BookEntry
  no_asks : List BookEntry
deriving DecidableEq, Repr

/-- `OrderBook.get_best_ask_yes`: price of the first YES ask, if any. -/
def bestAskYes (b : OrderBook) : Option ℚ :=
  b.yes_asks.head?.map BookEntry.price

/-- `OrderBook.get_best_ask_no`: price of the first NO ask, if any. -/
def bestAskNo (b : OrderBook) : Option ℚ :=
  b.no_asks.head?.map BookEntry.price

/-- Best ask on the named side. -/
def bestAskOf (b : OrderBook) : Side → Option ℚ
  | Side.yes => bestAskYes b
  | Side.no => bestAskNo b

/-- `OrderBook.get_depth(side, "ASK", max_levels)`: total size over the top
`max_levels` ask levels of the named side. -/
def askDepth (b : OrderBook) (side : Side) (max_levels : ℕ) : ℚ :=
  let entries := match side with
    | Side.yes => b.yes_asks
    | Side.no => b.no_asks
  ((entries.take max_levels).map BookEntry.size).sum

/-- `avg_yes` as recomputed by `Accumulator.calculate_state`. -/
def calcAvgYes (p : Position) : ℚ :=
  if 0 < p.qty_yes then p.cost_yes / p.qty_yes else 0

/-- `avg_no` as recomputed by `Accumulator.calculate_state`. -/
def calcAvgNo (p : Position) : ℚ :=
  if 0 < p.qty_no then p.cost_no / p.qty_no else 0

/-- A detected opportunity (the dicts built in `_scan_and_execute`). -/
structure Opportunity where
  side : Side
  price : ℚ
  expected_pair_cost : ℚ
deriving DecidableEq, Repr

/-- Opportunity detection and selection of `Accumulator._scan_and_execute`:
skip when an ask list is empty or a best ask is `0` (Python `not ask`
truthiness on `Decimal`), form the YES/NO candidates against
`target_cost = 1 - profit_margin`, and pick one.  When both candidates
exist the YES one is taken only if its expected pair cost is strictly
lower; otherwise the NO one is taken. -/
def scanSelect (p : Position) (b : OrderBook) (target_cost : ℚ) :
    Option Opportunity :=
  if b.yes_asks.isEmpty || b.no_asks.isEmpty then none
  else
    match bestAskYes b, bestAskNo b with
    | some ask_yes, some ask_no =>
      if ask_yes = 0 || ask_no = 0 then none
      else
        let avg_yes := calcAvgYes p
        let avg_no := calcAvgNo p
        let oy : Option Opportunity :=
          if ask_yes + avg_no < target_cost then
            some { side := Side.yes, price := ask_yes,
                   expected_pair_cost := ask_yes + avg_no }
          else none
        let on2 : Option Opportunity :=
          if ask_no + avg_yes < target_cost then
            some { side := Side.no, price := ask_no,
                   expected_pair_cost := ask_no + avg_yes }
          else none
        match oy, on2 with
        | some o1, some o2 =>
          if o1.expected_pair_cost < o2.expected_pair_cost then some o1
          else some o2
        | some o1, none => some o1
        | none, some o2 => some o2
        | none, none => none
    | _, _ => none

/-- Signed quantity of a buy: `+trade_size` for YES, `-trade_size` for NO. -/
def signedQty (side : Side) (trade_size : ℚ) : ℚ :=
  match side with
  | Side.yes => trade_size
  | Side.no => -trade_size

/-- `Accumulator._check_constraints`: the delta cap
(`abs(new_delta) > max_unhedged_delta` rejects) and the opposite-side
ask-depth floor over the top 5 levels. -/
def checkConstraints (side : Side) (p : Position) (b : OrderBook)
    (trade_size max_unhedged_delta min_liquidity_multiplier : ℚ) : Bool :=
  let new_delta := match side with
    | Side.yes => p.delta + trade_size
    | Side.no => p.delta - trade_size
  if |new_delta| > max_unhedged_delta then false
  else
    let required_liquidity := trade_size * min_liquidity_multiplier
    let opposite := match side with
      | Side.yes => Side.no
      | Side.no => Side.yes
    let available_liquidity := askDepth b opposite 5
    if available_liquidity < required_liquidity then false
    else true

/-- The guard of `Accumulator._execute_opportunity`: the selected candidate
reaches `execute_trade` only when `_check_constraints` passes. -/
def executeOpportunity (o : Opportunity) (p : Position) (b : OrderBook)
    (trade_size max_unhedged_delta min_liquidity_multiplier : ℚ) :
    Option Opportunity :=
  if checkConstraints o.side p b trade_size max_unhedged_delta
      min_liquidity_multiplier then
    some o
  else none

/-- A trade record (the fields of `Trade` relevant to the core). -/
structure TradeRec where
  side : Side
  price : ℚ
  qty : ℚ
  resulting_pair_cost : ℚ
  resulting_delta : ℚ
deriving DecidableEq, Repr

/-- Position plus trade log, the state touched by `execute_trade`. -/
structure ExecState where
  position : Position
  trade_log : List TradeRec
deriving DecidableEq, Repr

/-- State effect of `Accumulator.execute_trade` given the venue's reply:
on `not order_id` (a `None` or empty id) it returns with no state change;
otherwise it commits `update_position_atomic(side, qty, price*qty)` and
appends a trade record carrying the recomputed pair cost and delta. -/
def executeTradeStep (st : ExecState) (order_id : Option String) (side : Side)
    (price qty : ℚ) : ExecState :=
  match order_id with
  | none => st
  | some oid =>
    if oid.isEmpty then st
    else
      let updated := updatePositionAtomic st.position side qty (price * qty)
      let t : TradeRec :=
        { side := side, price := price, qty := qty,
          resulting_pair_cost := calcAvgYes updated + calcAvgNo updated,
          resulting_delta := updated.qty_yes - updated.qty_no }
      { position := updated, trade_log := st.trade_log ++ [t] }

/-- `RiskEngine._get_mid_price`: mean of top bid and top ask, `None` when
either list is empty. -/
def midPrice (bids asks : List BookEntry) : Option ℚ :=
  match bids.head?, asks.head? with
  | some bid, some ask => some ((bid.price + ask.price) / 2)
  | _, _ => none

/-- `RiskEngine.check_bailout_stop_loss`: mark the position to mid prices
and trigger when the unrealized loss exceeds
`position_cost * bailout_stop_loss_percent / 100`.  A missing mid — and,
by Python `not mid` truthiness, a zero mid — reports no trigger. -/
def checkBailoutStopLoss (p : Position) (b : OrderBook) (pct : ℚ) : Bool :=
  match midPrice b.yes_bids b.yes_asks, midPrice b.no_bids b.no_asks with
  | some mid_yes, some mid_no =>
    if mid_yes = 0 ∨ mid_no = 0 then false
    else
      let position_value := p.qty_yes * mid_yes + p.qty_no * mid_no
      let position_cost := p.cost_yes + p.cost_no
      let unrealized_pnl := position_value - position_cost
      let loss_threshold := position_cost * (pct / 100)
      decide (unrealized_pnl < -loss_threshold)
  | _, _ => false

/-- Average of the non-lagging side, as read by `Equalizer._rebalance_position`
from `calculate_state`. -/
def oppositeAvg (p : Position) : Side → ℚ
  | Side.yes => calcAvgNo p
  | Side.no => calcAvgYes p

/-- Price logic of `Equalizer._rebalance_position`: abort on a missing (or
zero, by truthiness) best ask on the lagging side, abort when
`max_price = 0.99 - opposite_avg ≤ 0`, and otherwise run every chunk at
`bid_price = min(best_ask, max_price)`.  Returns the chunk price, or
`none` when no trade is attempted. -/
def rebalanceBidPrice (p : Position) (b : OrderBook) (lagging : Side) :
    Option ℚ :=
  match bestAskOf b lagging with
  | none => none
  | some best_ask =>
    if best_ask = 0 then none
    else
      let max_price := (99 : ℚ) / 100 - oppositeAvg p lagging
      if max_price ≤ 0 then none
      else some (min best_ask max_price)

/-- One member of the redis sorted set behind the trade log: the member is
the serialized trade (modelled as a number, trade ids are unique) and the
score is its Unix timestamp. -/
structure ZEntry where
  member : ℕ
  score : ℚ
deriving DecidableEq, Repr

/-- Redis sorted-set order: ascending score, ties ascending member. -/
def zle (a b : ZEntry) : Prop :=
  a.score < b.score ∨ (a.score = b.score ∧ a.member ≤ b.member)

instance : DecidableRel zle := fun a b => by
  unfold zle
  infer_instance

instance : IsTotal ZEntry zle where
  total a b := by
    rcases lt_trichotomy a.score b.score with h | h | h
    · exact Or.inl (Or.inl h)
    · rcases Nat.le_total a.member b.member with hm | hm
      · exact Or.inl (Or.inr ⟨h, hm⟩)
      · exact Or.inr (Or.inr ⟨h.symm, hm⟩)
    · exact Or.inr (Or.inl h)

instance : IsTrans ZEntry zle where
  trans a b c hab hbc := by
    rcases hab with h1 | ⟨h1, m1⟩ <;> rcases hbc with h2 | ⟨h2, m2⟩
    · exact Or.inl (h1.trans h2)
    · exact Or.inl (h2 ▸ h1)
    · exact Or.inl (h1 ▸ h2)
    · exact Or.inr ⟨h1.trans h2, m1.trans m2⟩

/-- `ZADD`: replace any stale entry for the same member, insert in sorted
position. -/
def zadd (e : ZEntry) (l : List ZEntry) : List ZEntry :=
  List.orderedInsert zle e (l.filter fun x => x.member != e.member)

/-- `ZREMRANGEBYRANK key 0 -1001`: drop all but the 1000 highest-ranked
(newest-score) entries. -/
def ztrim (l : List ZEntry) : List ZEntry :=
  l.drop (l.length - 1000)

/-- `StateManager.add_trade`: `ZADD` the record with its timestamp as
score, then trim to the most recent 1000. -/
def addTrade (e : ZEntry) (l : List ZEntry) : List ZEntry :=
  ztrim (zadd e l)

/-- The other side. -/
def otherSide : Side → Side
  | Side.yes => Side.no
  | Side.no => Side.yes

/-- Retry recursion of `update_position_atomic`: attempt `n+1` is reached
exactly when attempt `n` was reached and raised a `WatchError`
(`conflicts n = true`).  The source retries by direct recursion with no
depth cap. -/
def retriesReach (conflicts : ℕ → Bool) : ℕ → Bool
  | 0 => true
  | n + 1 => retriesReach conflicts n && conflicts n

/-! ### Helper lemmas -/

/-- The piecewise locked-profit of the validator equals a clamped product. -/
theorem locked_profit_if_eq (a b s : ℚ) :
    (if 0 < min a b ∧ s < 1 then min a b * (1 - s) else 0)
      = max 0 (min a b) * max 0 (1 - s) := by
  by_cases h1 : 0 < min a b
  · by_cases h2 : s < 1
    · have hs : (0 : ℚ) ≤ 1 - s := by linarith
      rw [if_pos ⟨h1, h2⟩, max_eq_right h1.le, max_eq_right hs]
    · have hs : (1 : ℚ) - s ≤ 0 := by linarith [not_lt.mp h2]
      rw [if_neg (fun hc => h2 hc.2), max_eq_left hs, mul_zero]
  · have hm : min a b ≤ 0 := not_lt.mp h1
    rw [if_neg (fun hc => h1 hc.1), max_eq_left hm, zero_mul]

/-! ### Claims -/

/-- Claim C1, amended: `update_position_atomic(side, qty_delta, cost_delta)`
adds the deltas to the primaries of the named side, leaves the other side's
primaries unchanged, and recomputes every derived field from the new
primaries — with `locked_profit = max 0 (min qty_yes qty_no) * max 0
(1 - pair_cost)` (the validator also clamps a negative paired quantity to
zero, which the original claim's formula does not). -/
theorem update_position_recomputes_derived (p : Position) (side : Side)
    (qd cd : ℚ) :
    let q := updatePositionAtomic p side qd cd
    sideQty q side = sideQty p side + qd ∧
    sideCost q side = sideCost p side + cd ∧
    sideQty q (otherSide side) = sideQty p (otherSide side) ∧
    sideCost q (otherSide side) = sideCost p (otherSide side) ∧
    q.avg_yes = (if 0 < q.qty_yes then q.cost_yes / q.qty_yes else 0) ∧
    q.avg_no = (if 0 < q.qty_no then q.cost_no / q.qty_no else 0) ∧
    q.pair_cost = q.avg_yes + q.avg_no ∧
    q.delta = q.qty_yes - q.qty_no ∧
    q.locked_profit
      = max 0 (min q.qty_yes q.qty_no) * max 0 (1 - q.pair_cost) := by
  cases side <;>
    exact ⟨rfl, rfl, rfl, rfl, rfl, rfl, rfl, rfl, locked_profit_if_eq _ _ _⟩

/-- Claim C1, counterexample: from the empty position, a sell update of
`-5` YES leaves `locked_profit = 0`, while the claimed formula
`min(qty_yes, qty_no) * max(0, 1 - pair_cost)` gives `-5`. -/
theorem update_position_locked_profit_claim_false :
    ¬ ((updatePositionAtomic (mkPosition 0 0 0 0) Side.yes (-5) 0).locked_profit
      = min (updatePositionAtomic (mkPosition 0 0 0 0) Side.yes (-5) 0).qty_yes
          (updatePositionAtomic (mkPosition 0 0 0 0) Side.yes (-5) 0).qty_no
        * max 0
          (1 - (updatePositionAtomic (mkPosition 0 0 0 0) Side.yes
            (-5) 0).pair_cost)) := by
  norm_num [updatePositionAtomic, mkPosition]

/-- Claim C2, amended: the emergency-liquidation sell on side `S` zeroes
`qty_S` and leaves the other side untouched, so all quantities stay
nonnegative; `cost_S` becomes `cost_S - best_bid * qty_S`, which stays
nonnegative provided `best_bid * qty_S ≤ cost_S` — the code does not
enforce this, so the cost primary can go negative when the best bid
exceeds the side's average entry price. -/
theorem liquidation_sell_nonneg (p : Position) (side : Side) (best_bid : ℚ)
    (h1 : 0 ≤ p.qty_yes) (h2 : 0 ≤ p.cost_yes) (h3 : 0 ≤ p.qty_no)
    (h4 : 0 ≤ p.cost_no)
    (h5 : best_bid * sideQty p side ≤ sideCost p side) :
    0 ≤ (marketSellUpdate p side best_bid).qty_yes ∧
    0 ≤ (marketSellUpdate p side best_bid).cost_yes ∧
    0 ≤ (marketSellUpdate p side best_bid).qty_no ∧
    0 ≤ (marketSellUpdate p side best_bid).cost_no := by
  cases side <;>
    simp only [marketSellUpdate, updatePositionAtomic, mkPosition, sideQty,
      sideCost] at h5 ⊢ <;>
    exact ⟨by linarith, by linarith, by linarith, by linarith⟩

/-- Claim C2, witness: liquidating a YES leg of 10 shares costing 4 at a
best bid of 0.30 keeps every primary nonnegative. -/
theorem liquidation_sell_nonneg_witness :
    0 ≤ (marketSellUpdate (mkPosition 10 4 0 0) Side.yes (3/10)).qty_yes ∧
    0 ≤ (marketSellUpdate (mkPosition 10 4 0 0) Side.yes (3/10)).cost_yes ∧
    0 ≤ (marketSellUpdate (mkPosition 10 4 0 0) Side.yes (3/10)).qty_no ∧
    0 ≤ (marketSellUpdate (mkPosition 10 4 0 0) Side.yes (3/10)).cost_no :=
  liquidation_sell_nonneg (mkPosition 10 4 0 0) Side.yes (3/10)
    (by norm_num [mkPosition]) (by norm_num [mkPosition])
    (by norm_num [mkPosition]) (by norm_num [mkPosition])
    (by norm_num [mkPosition, sideQty, sideCost])

/-- Claim C2, counterexample: liquidating a YES leg of 10 shares that cost
1 in total (average 0.10) at a best bid of 0.50 drives `cost_yes` to
`-4 < 0`, violating the claimed nonnegativity invariant. -/
theorem liquidation_sell_negative_cost :
    (marketSellUpdate (mkPosition 10 1 0 0) Side.yes (1/2)).cost_yes < 0 := by
  norm_num [marketSellUpdate, updatePositionAtomic, mkPosition, sideQty]

/-- Claim C3, amended: when a YES and a NO opportunity coexist on a scan
tick, the scanner hands execution the candidate with the strictly lower
expected pair cost — but on equal expected pair costs it executes the NO
candidate, not the YES one (the source compares with a strict `<` whose
`else` branch takes NO). -/
theorem scan_selects_lower_cost_tie_no (p : Position) (b : OrderBook)
    (target ay an : ℚ)
    (hy : bestAskYes b = some ay) (hn : bestAskNo b = some an)
    (hy0 : ay ≠ 0) (hn0 : an ≠ 0)
    (hyo : ay + calcAvgNo p < target) (hno : an + calcAvgYes p < target) :
    scanSelect p b target =
      some (if ay + calcAvgNo p < an + calcAvgYes p
        then { side := Side.yes, price := ay,
               expected_pair_cost := ay + calcAvgNo p }
        else { side := Side.no, price := an,
               expected_pair_cost := an + calcAvgYes p }) := by
  have hye : b.yes_asks.isEmpty = false := by
    cases hl : b.yes_asks with
    | nil => rw [bestAskYes, hl] at hy; simp at hy
    | cons a l => simp
  have hne : b.no_asks.isEmpty = false := by
    cases hl : b.no_asks with
    | nil => rw [bestAskNo, hl] at hn; simp at hn
    | cons a l => simp
  simp [scanSelect, hye, hne, hy, hn, hy0, hn0, hyo, hno]
  split_ifs <;> rfl

/-- Claim C3, witness: empty position, YES ask 0.40, NO ask 0.55, target
0.98 — the YES candidate has the strictly lower expected pair cost and is
selected. -/
theorem scan_selects_lower_cost_witness :
    scanSelect (mkPosition 0 0 0 0)
        { yes_bids := [], yes_asks := [{ price := 2/5, size := 100 }],
          no_bids := [],
          no_asks := [{ price := 11/20, size := 100 }] } (49/50) =
      some (if (2/5 : ℚ) + calcAvgNo (mkPosition 0 0 0 0)
            < 11/20 + calcAvgYes (mkPosition 0 0 0 0)
        then { side := Side.yes, price := 2/5,
               expected_pair_cost := 2/5 + calcAvgNo (mkPosition 0 0 0 0) }
        else { side := Side.no, price := 11/20,
               expected_pair_cost :=
                 11/20 + calcAvgYes (mkPosition 0 0 0 0) }) :=
  scan_selects_lower_cost_tie_no (mkPosition 0 0 0 0) _ (49/50) (2/5) (11/20)
    rfl rfl (by norm_num) (by norm_num)
    (by norm_num [calcAvgNo, mkPosition]) (by norm_num [calcAvgYes, mkPosition])

/-- Claim C3, counterexample: empty position and both best asks at 0.40 —
the two candidates have equal expected pair cost 0.40 yet the scanner
selects the NO candidate, where the claim mandates YES. -/
theorem scan_tie_prefers_no_counterexample :
    (scanSelect (mkPosition 0 0 0 0)
        { yes_bids := [], yes_asks := [{ price := 2/5, size := 100 }],
          no_bids := [],
          no_asks := [{ price := 2/5, size := 100 }] } (49/50)).map
        Opportunity.side = some Side.no ∧ Side.no ≠ Side.yes := by
  constructor
  · norm_num [scanSelect, bestAskYes, bestAskNo, calcAvgYes, calcAvgNo,
      mkPosition]
  · simp

/-- Claim C4, amended: the stop-loss check triggers iff both mids are
computable AND nonzero and the unrealized loss exceeds the threshold; a
missing mid — or a zero mid, which the source's `not mid` truthiness test
lumps in with missing — reports no trigger. -/
theorem stop_loss_trigger_iff (p : Position) (b : OrderBook) (pct : ℚ) :
    checkBailoutStopLoss p b pct = true ↔
      ∃ my mn, midPrice b.yes_bids b.yes_asks = some my ∧
        midPrice b.no_bids b.no_asks = some mn ∧ my ≠ 0 ∧ mn ≠ 0 ∧
        p.qty_yes * my + p.qty_no * mn - (p.cost_yes + p.cost_no) <
          -((p.cost_yes + p.cost_no) * (pct / 100)) := by
  unfold checkBailoutStopLoss
  cases hy : midPrice b.yes_bids b.yes_asks with
  | none => simp
  | some my =>
    cases hn : midPrice b.no_bids b.no_asks with
    | none => simp
    | some mn =>
      change (if my = 0 ∨ mn = 0 then false
        else decide (p.qty_yes * my + p.qty_no * mn -
            (p.cost_yes + p.cost_no) <
          -((p.cost_yes + p.cost_no) * (pct / 100)))) = true ↔ _
      by_cases h0 : my = 0 ∨ mn = 0
      · rw [if_pos h0]
        simp only [Bool.false_eq_true, false_iff]
        rintro ⟨my2, mn2, hm1, hm2, hne1, hne2, _⟩
        rw [Option.some_inj] at hm1 hm2
        rcases h0 with h0 | h0
        · exact hne1 (hm1 ▸ h0)
        · exact hne2 (hm2 ▸ h0)
      · rw [if_neg h0]
        push_neg at h0
        constructor
        · intro h
          exact ⟨my, mn, rfl, rfl, h0.1, h0.2, of_decide_eq_true h⟩
        · rintro ⟨my2, mn2, hm1, hm2, _, _, hlt⟩
          rw [Option.some_inj] at hm1 hm2
          subst hm1; subst hm2
          exact decide_eq_true hlt

/-- Claim C4, counterexample: YES book quoted at bid 0, ask 0 (mid 0), NO
book at 0.50; position holds 1 YES share costing 1.  Both mids are
computable and the unrealized loss (-1) is far past the 2% threshold, yet
the check reports no trigger because the zero YES mid is treated as
missing. -/
theorem stop_loss_zero_mid_counterexample :
    checkBailoutStopLoss (mkPosition 1 1 0 0)
        { yes_bids := [{ price := 0, size := 1 }],
          yes_asks := [{ price := 0, size := 1 }],
          no_bids := [{ price := 1/2, size := 1 }],
          no_asks := [{ price := 1/2, size := 1 }] } 2 = false ∧
      midPrice [{ price := (0 : ℚ), size := 1 }]
          [{ price := (0 : ℚ), size := 1 }] = some 0 ∧
      midPrice [{ price := (1/2 : ℚ), size := 1 }]
          [{ price := (1/2 : ℚ), size := 1 }] = some (1/2) ∧
      (mkPosition 1 1 0 0).qty_yes * 0 + (mkPosition 1 1 0 0).qty_no * (1/2)
          - ((mkPosition 1 1 0 0).cost_yes + (mkPosition 1 1 0 0).cost_no)
        < -(((mkPosition 1 1 0 0).cost_yes + (mkPosition 1 1 0 0).cost_no)
            * (2 / 100)) := by
  refine ⟨?_, ?_, ?_, ?_⟩ <;>
    norm_num [checkBailoutStopLoss, midPrice, mkPosition]

/-- Claim C5: the Equalizer places no trade when
`max_price = 0.99 - opposite_avg ≤ 0`, and every chunk trade it does
place is priced at `min(best_ask, max_price)`, hence satisfies
`bid_price + opposite_avg ≤ 0.99`. -/
theorem equalizer_ceiling (p : Position) (b : OrderBook) (lagging : Side) :
    ((99 : ℚ)/100 - oppositeAvg p lagging ≤ 0 →
      rebalanceBidPrice p b lagging = none) ∧
    (∀ bp a, bestAskOf b lagging = some a →
      rebalanceBidPrice p b lagging = some bp →
      bp = min a ((99 : ℚ)/100 - oppositeAvg p lagging) ∧
        bp + oppositeAvg p lagging ≤ 99/100) := by
  constructor
  · intro h
    unfold rebalanceBidPrice
    cases ha : bestAskOf b lagging with
    | none => rfl
    | some a =>
      by_cases h0 : a = 0
      · simp [h0]
      · simp [h0, h]
  · intro bp a ha hr
    unfold rebalanceBidPrice at hr
    rw [ha] at hr
    by_cases h0 : a = 0
    · simp [h0] at hr
    · by_cases hm : (99 : ℚ)/100 - oppositeAvg p lagging ≤ 0
      · simp [h0, hm] at hr
      · simp [h0, hm] at hr
        refine ⟨hr.symm, ?_⟩
        have hle := min_le_right a ((99 : ℚ)/100 - oppositeAvg p lagging)
        rw [← hr]
        linarith

/-- Claim C5, witness: position 30 YES at 0.60 average and 10 NO, lagging
side NO with best ask 0.42; `max_price = 0.39` so the chunk price is 0.39
and `0.39 + 0.60 ≤ 0.99`. -/
theorem equalizer_ceiling_witness :
    (39 : ℚ)/100 =
        min (21/50)
          ((99 : ℚ)/100 - oppositeAvg (mkPosition 30 18 10 (7/2)) Side.no) ∧
      (39 : ℚ)/100 + oppositeAvg (mkPosition 30 18 10 (7/2)) Side.no
        ≤ 99/100 :=
  (equalizer_ceiling (mkPosition 30 18 10 (7/2))
      { yes_bids := [], yes_asks := [], no_bids := [],
        no_asks := [{ price := 21/50, size := 50 }] } Side.no).2
    (39/100) (21/50) rfl
    (by norm_num [rebalanceBidPrice, bestAskOf, bestAskNo, oppositeAvg,
      calcAvgYes, mkPosition])

/-- Claim C6: a candidate reaches execution only through
`_check_constraints`, so every executed scan trade satisfies
`|delta + signed_qty| ≤ max_unhedged_delta` against the snapshot it was
evaluated on, and a candidate violating the cap is not executed. -/
theorem accumulator_delta_cap (o : Opportunity) (p : Position) (b : OrderBook)
    (ts md ml : ℚ) :
    (∀ o2, executeOpportunity o p b ts md ml = some o2 →
      |p.delta + signedQty o.side ts| ≤ md) ∧
    (md < |p.delta + signedQty o.side ts| →
      executeOpportunity o p b ts md ml = none) := by
  have key : ∀ side : Side, checkConstraints side p b ts md ml = true →
      |p.delta + signedQty side ts| ≤ md := by
    intro side h
    unfold checkConstraints at h
    cases side
    case yes =>
      by_cases habs : |p.delta + ts| > md
      · simp [habs] at h
      · simpa [signedQty] using not_lt.mp habs
    case no =>
      by_cases habs : |p.delta - ts| > md
      · simp [habs] at h
      · have hle := not_lt.mp habs
        simp only [signedQty, ← sub_eq_add_neg]
        exact hle
  constructor
  · intro o2 h2
    by_cases hc : checkConstraints o.side p b ts md ml = true
    · exact key o.side hc
    · unfold executeOpportunity at h2
      simp [hc] at h2
  · intro hgt
    have hc : checkConstraints o.side p b ts md ml = false := by
      unfold checkConstraints
      cases hs : o.side
      case yes =>
        rw [hs] at hgt
        simp only [signedQty] at hgt
        rw [if_pos hgt]
      case no =>
        rw [hs] at hgt
        simp only [signedQty, ← sub_eq_add_neg] at hgt
        rw [if_pos hgt]
    unfold executeOpportunity
    simp [hc]

/-- Claim C6, witness: empty position, YES candidate of size 10 against a
cap of 50 with ample opposite liquidity — the trade executes and the
post-trade delta magnitude 10 is within the cap. -/
theorem accumulator_delta_cap_witness :
    |(mkPosition 0 0 0 0).delta + signedQty Side.yes 10| ≤ 50 :=
  (accumulator_delta_cap
      { side := Side.yes, price := 2/5, expected_pair_cost := 2/5 }
      (mkPosition 0 0 0 0)
      { yes_bids := [], yes_asks := [{ price := 2/5, size := 100 }],
        no_bids := [], no_asks := [{ price := 2/5, size := 100 }] }
      10 50 3).1
    { side := Side.yes, price := 2/5, expected_pair_cost := 2/5 }
    (by norm_num [executeOpportunity, checkConstraints, askDepth,
      mkPosition, signedQty])

/-- Claim C7: when the venue returns no order id, `execute_trade` returns
before `update_position_atomic` and before `add_trade` — position and
trade log are unchanged. -/
theorem venue_rejection_no_state_change (st : ExecState) (side : Side)
    (price qty : ℚ) :
    executeTradeStep st none side price qty = st := rfl

/-- Claim C8: after `add_trade` the sorted-set trade log holds at most
1000 entries, and every evicted entry's timestamp score is at most every
retained entry's score (the newest 1000 by score are kept). -/
theorem trade_log_bounded_evicts_oldest (e : ZEntry) (l : List ZEntry)
    (hs : List.Sorted zle l) :
    (addTrade e l).length ≤ 1000 ∧
    (∀ x ∈ (zadd e l).take ((zadd e l).length - 1000),
      ∀ y ∈ addTrade e l, x.score ≤ y.score) := by
  have hsorted : List.Sorted zle (zadd e l) :=
    (hs.filter _).orderedInsert e _
  constructor
  · unfold addTrade ztrim
    rw [List.length_drop]
    omega
  · intro x hx y hy
    have hp : List.Pairwise zle
        ((zadd e l).take ((zadd e l).length - 1000) ++
          (zadd e l).drop ((zadd e l).length - 1000)) := by
      rw [List.take_append_drop]
      exact hsorted
    have hxy := (List.pairwise_append.mp hp).2.2 x hx y hy
    rcases hxy with h | ⟨h, _⟩
    · exact h.le
    · exact le_of_eq h

/-- Claim C8, witness: adding a trade with score 5 to a log holding one
trade with score 3 keeps the log within bound with no eviction. -/
theorem trade_log_bounded_witness :
    (addTrade ⟨1, 5⟩ [⟨0, 3⟩]).length ≤ 1000 ∧
    (∀ x ∈ (zadd ⟨1, 5⟩ [⟨0, 3⟩]).take ((zadd ⟨1, 5⟩ [⟨0, 3⟩]).length - 1000),
      ∀ y ∈ addTrade ⟨1, 5⟩ [⟨0, 3⟩], x.score ≤ y.score) :=
  trade_log_bounded_evicts_oldest ⟨1, 5⟩ [⟨0, 3⟩] (List.sorted_singleton _)

/-- Attempts under a permanently conflicting store are all reached. -/
theorem retriesReach_const_true (n : ℕ) :
    retriesReach (fun _ => true) n = true := by
  induction n with
  | zero => rfl
  | succ k ih => simp [retriesReach, ih]

/-- Claim C9: the retry path of `update_position_atomic` retries by direct
recursion with no depth cap, so no finite bound covers every execution:
under a schedule that conflicts on every attempt, every recursion depth is
reached. -/
theorem retry_depth_unbounded :
    ¬ ∃ B : ℕ, ∀ n : ℕ, retriesReach (fun _ => true) n = true → n ≤ B := by
  rintro ⟨B, hB⟩
  have h := hB (B + 1) (retriesReach_const_true (B + 1))
  omega

/-- Claim C10: with both ask lists non-empty, a best ask equal to 0 on
either side makes the scanner skip the tick (Python `not ask` truthiness),
selecting no opportunity. -/
theorem zero_ask_skips_tick (p : Position) (b : OrderBook) (target : ℚ)
    (h1 : b.yes_asks ≠ []) (h2 : b.no_asks ≠ [])
    (h : bestAskYes b = some 0 ∨ bestAskNo b = some 0) :
    scanSelect p b target = none := by
  obtain ⟨y0, ys, hby⟩ := List.exists_cons_of_ne_nil h1
  obtain ⟨n0, ns, hbn⟩ := List.exists_cons_of_ne_nil h2
  have h9 : y0.price = 0 ∨ n0.price = 0 := by
    rcases h with h | h
    · left; rw [bestAskYes, hby] at h; simpa using h
    · right; rw [bestAskNo, hbn] at h; simpa using h
  rcases h9 with h9 | h9 <;>
    simp [scanSelect, hby, hbn, bestAskYes, bestAskNo, h9]

/-- Claim C10, witness: nonempty books with the YES best ask at price 0 —
the scan selects nothing. -/
theorem zero_ask_skips_tick_witness :
    scanSelect (mkPosition 0 0 0 0)
        { yes_bids := [], yes_asks := [{ price := 0, size := 5 }],
          no_bids := [], no_asks := [{ price := 1/2, size := 5 }] }
        (49/50) = none :=
  zero_ask_skips_tick (mkPosition 0 0 0 0) _ (49/50)
    (List.cons_ne_nil _ _) (List.cons_ne_nil _ _) (Or.inl rfl)

end Gabagool
